import Mathlib

/-!
Verification of the SnipScreen canvas editing core.

The JavaScript source (editor-tools.js, editor-canvas.js, the editor class
file, the utility module and the event module) is shallowly embedded below.
JavaScript numbers are modelled as rationals, canvas and image dimensions as
integers, and the stateful editor pipeline as pure functions threading the
relevant state slices.
-/

namespace SnipScreen

/-- JavaScript Math.round: round half toward positive infinity. -/
def jsRound (q : ℚ) : ℤ := ⌊q + 1 / 2⌋

/-- A point in canvas coordinates (JS numbers modelled as rationals). -/
structure Pt where
  x : ℚ
  y : ℚ
deriving DecidableEq

/-- An overlay element `{ id, type, x, y, width, height, color }` as stored in
`this.elements.annotationElements` (field `type` is renamed `ty`). -/
structure Element where
  id : String
  ty : String
  x : ℚ
  y : ℚ
  width : ℚ
  height : ℚ
  color : String
deriving DecidableEq

/-- A rational rectangle (display-space selection after normalisation). -/
structure QRect where
  x : ℚ
  y : ℚ
  w : ℚ
  h : ℚ
deriving DecidableEq

/-- An integer rectangle (source region on the original image). -/
structure IRect where
  x : ℤ
  y : ℤ
  w : ℤ
  h : ℤ
deriving DecidableEq

/-- The slice of editor state that completeCrop reads and writes: the working
(offscreen) bitmap dimensions and the overlay element list. -/
structure Doc where
  offW : ℤ
  offH : ℤ
  elements : List Element
deriving DecidableEq

/-- Normalised, clamped crop selection in current bitmap space,
mirroring editor-tools.js lines 100-109 (Math.min/Math.abs/Math.round and the
two clamp steps against the display canvas bounds). -/
def clampedSelection (offW offH : ℤ) (cropStart cropEnd : Pt) : QRect :=
  let displayStartX := min cropStart.x cropEnd.x
  let displayStartY := min cropStart.y cropEnd.y
  let displayCropWidth : ℚ := max 1 ((jsRound |cropEnd.x - cropStart.x| : ℤ) : ℚ)
  let displayCropHeight : ℚ := max 1 ((jsRound |cropEnd.y - cropStart.y| : ℤ) : ℚ)
  let clampedStartX := max 0 (min displayStartX (offW : ℚ))
  let clampedStartY := max 0 (min displayStartY (offH : ℚ))
  let clampedWidth := max 1 (min displayCropWidth ((offW : ℚ) - clampedStartX))
  let clampedHeight := max 1 (min displayCropHeight ((offH : ℚ) - clampedStartY))
  ⟨clampedStartX, clampedStartY, clampedWidth, clampedHeight⟩

/-- The clamped source rectangle on the original full-resolution image,
mirroring editor-tools.js lines 121-132 (scale factors, Math.round, and the
clamp against the original image bounds). -/
def sourceRect (origW origH offW offH : ℤ) (cropStart cropEnd : Pt) : IRect :=
  let sel := clampedSelection offW offH cropStart cropEnd
  let scaleX : ℚ := (origW : ℚ) / (offW : ℚ)
  let scaleY : ℚ := (origH : ℚ) / (offH : ℚ)
  let sourceX := jsRound (sel.x * scaleX)
  let sourceY := jsRound (sel.y * scaleY)
  let sourceWidth := jsRound (sel.w * scaleX)
  let sourceHeight := jsRound (sel.h * scaleY)
  let clampedSourceX := max 0 (min sourceX origW)
  let clampedSourceY := max 0 (min sourceY origH)
  ⟨clampedSourceX, clampedSourceY,
   max 1 (min sourceWidth (origW - clampedSourceX)),
   max 1 (min sourceHeight (origH - clampedSourceY))⟩

/-- Element re-projection performed by completeCrop (editor-tools.js lines
155-164): scale the element into original-image space, translate by the
clamped source origin, and round every coordinate. -/
def reprojectElement (scaleX scaleY : ℚ) (srcX srcY : ℤ) (el : Element) : Element :=
  let originalElementX := el.x * scaleX
  let originalElementY := el.y * scaleY
  let originalElementWidth := el.width * scaleX
  let originalElementHeight := el.height * scaleY
  let newX := originalElementX - (srcX : ℚ)
  let newY := originalElementY - (srcY : ℚ)
  { el with
    x := (jsRound newX : ℚ)
    y := (jsRound newY : ℚ)
    width := (jsRound originalElementWidth : ℚ)
    height := (jsRound originalElementHeight : ℚ) }

/-- The survival filter applied after re-projection (editor-tools.js lines
166-170): keep an element when its right and bottom edges are positive and its
origin lies before the new canvas extent. -/
def survivesCrop (newW newH : ℤ) (el : Element) : Bool :=
  decide (0 < el.x + el.width) && decide (0 < el.y + el.height)
    && decide (el.x < (newW : ℚ)) && decide (el.y < (newH : ℚ))

/-- The re-projection used by completeCrop with the scale factors and clamped
source origin it computes from the document and the original image. -/
def cropReproject (origW origH offW offH : ℤ) (s p : Pt) (el : Element) : Element :=
  reprojectElement ((origW : ℚ) / (offW : ℚ)) ((origH : ℚ) / (offH : ℚ))
    (sourceRect origW origH offW offH s p).x (sourceRect origW origH offW offH s p).y el

/-- Outcome of completeCrop. `rejected` covers the guard returns before the
try-block mutates anything; `drawFail` models drawImage throwing after the
canvases were already resized (editor-tools.js resizes at lines 138-141 and
draws at line 146); `success` is the committed crop. -/
inductive CropOutcome where
  | rejected (doc : Doc)
  | drawFail (doc : Doc)
  | success (doc : Doc)
deriving DecidableEq

/-- completeCrop (editor-tools.js lines 82-189) on the state slice it touches.
`drawOk` is true when the drawImage call into the resized offscreen canvas
succeeds; the prerequisite checks on cropStart/cropEnd/tool state are the
caller's and the two selection points are passed directly. -/
def completeCrop (origW origH : ℤ) (cropStart cropEnd : Pt) (drawOk : Bool)
    (doc : Doc) : CropOutcome :=
  if doc.offW = 0 ∨ doc.offH = 0 then .rejected doc
  else
    let sel := clampedSelection doc.offW doc.offH cropStart cropEnd
    if sel.w ≤ 1 ∨ sel.h ≤ 1 then .rejected doc
    else
      let src := sourceRect origW origH doc.offW doc.offH cropStart cropEnd
      if drawOk = false then .drawFail ⟨src.w, src.h, doc.elements⟩
      else .success ⟨src.w, src.h,
        (doc.elements.map (cropReproject origW origH doc.offW doc.offH cropStart cropEnd)).filter
          (survivesCrop src.w src.h)⟩

/-- The re-projection formula exactly as the specification words it:
newX = round(element.x*scaleX - sourceX), analogously for y, width and height. -/
def specReproject (scaleX scaleY : ℚ) (sourceX sourceY : ℤ) (el : Element) : Element :=
  { el with
    x := (jsRound (el.x * scaleX - (sourceX : ℚ)) : ℚ)
    y := (jsRound (el.y * scaleY - (sourceY : ℚ)) : ℚ)
    width := (jsRound (el.width * scaleX) : ℚ)
    height := (jsRound (el.height * scaleY) : ℚ) }

/-- The half-open boxes [x, x+w) x [y, y+h) and [0, W) x [0, H) share a point. -/
def Intersects (x y w h W H : ℚ) : Prop :=
  ∃ px py : ℚ, x ≤ px ∧ px < x + w ∧ 0 ≤ px ∧ px < W
    ∧ y ≤ py ∧ py < y + h ∧ 0 ≤ py ∧ py < H

/-- The drawing tools of the editor; toggleTool's mutually exclusive set is
['crop', 'annotate'] and 'text'/'arrow' are the other documented names. -/
inductive Tool where
  | crop
  | annotate
  | text
  | arrow
deriving DecidableEq

/-- The mutually exclusive drawing tools (editor-tools.js line 14). -/
def drawingTools : List Tool := [Tool.crop, Tool.annotate]

/-- toggleTool (editor-tools.js lines 6-73) acting on the active-tool set.
`visible` is false when the tool's DOM element is missing or hidden, in which
case the function returns without touching the state. Deactivating an active
tool removes it; activating first removes every other drawing tool (the
forEach over otherDrawingTools), then inserts the tool. -/
def toggleTool (visible : Bool) (tool : Tool) (activeTools : Finset Tool) : Finset Tool :=
  if visible = false then activeTools
  else if tool ∈ activeTools then activeTools.erase tool
  else insert tool
    ((drawingTools.filter (fun t => t ≠ tool)).foldl (fun s t => s.erase t) activeTools)

/-- The cached canvas bounding rectangle in viewport coordinates. -/
structure DisplayRect where
  left : ℚ
  top : ℚ
  width : ℚ
  height : ℚ
deriving DecidableEq

/-- getMousePos (part_002 lines 41-57): per-axis scale with a zero-size
guard, translate by the rect origin, scale, and clamp to the canvas extent. -/
def getMousePos (rect : DisplayRect) (canvasW canvasH : ℚ) (clientX clientY : ℚ) : Pt :=
  let scaleX := if rect.width = 0 then 1 else canvasW / rect.width
  let scaleY := if rect.height = 0 then 1 else canvasH / rect.height
  let canvasX := (clientX - rect.left) * scaleX
  let canvasY := (clientY - rect.top) * scaleY
  ⟨max 0 (min canvasX canvasW), max 0 (min canvasY canvasH)⟩

/-- Componentwise clamp of v to [lo, hi]. -/
def clampQ (lo hi v : ℚ) : ℚ := max lo (min v hi)

/-- The display-to-bitmap mapping exactly as the specification words it:
scale = bitmapSize / displayRectSize per axis (1 when the display rect is
degenerate), bitmapPoint = (displayPoint - origin) * scale, clamped to
[0, bitmapSize]. -/
def specToBitmapSpace (rect : DisplayRect) (bw bh cx cy : ℚ) : Pt :=
  ⟨clampQ 0 bw ((cx - rect.left) * (if rect.width = 0 then 1 else bw / rect.width)),
   clampQ 0 bh ((cy - rect.top) * (if rect.height = 0 then 1 else bh / rect.height))⟩

/-- The identifier given to a committed annotate rectangle:
anno- followed by Date.now(), part_002 line 160. -/
def freshAnnoId (now : ℕ) : String := "anno-" ++ toString now

/-- The annotate branch of handleMouseUp (part_002 lines 152-171): normalise
the dragged rectangle; when both sides exceed 1 pixel append a new element,
otherwise restore the pre-drag pixels (the returned Bool records whether
restoreCanvasState ran). -/
def handleMouseUpAnnotate (annotateStart pos : Pt) (now : ℕ) (elements : List Element) :
    List Element × Bool :=
  let startX := min annotateStart.x pos.x
  let startY := min annotateStart.y pos.y
  let width := |pos.x - annotateStart.x|
  let height := |pos.y - annotateStart.y|
  if 1 < width ∧ 1 < height then
    (elements ++ [{ id := freshAnnoId now, ty := "rect", x := startX, y := startY,
                    width := width, height := height, color := "#000000" }], false)
  else
    (elements, true)

/-- The throttle utility (editor-utils.js lines 10-39) run over a trace of
timestamped calls. The state is the time of the last executed call: a call
executes when no call has executed yet or when at least `limit` ms have
passed since the last executed call (the setTimeout clearing inThrottle);
otherwise it is skipped entirely - there is no trailing invocation. The
result lists the arguments of the executed calls in order. -/
def throttleRun {α : Type} (limit : ℚ) : Option ℚ → List (ℚ × α) → List α
  | _, [] => []
  | none, (t, a) :: rest => a :: throttleRun limit (some t) rest
  | some t0, (t, a) :: rest =>
    if t0 + limit ≤ t then a :: throttleRun limit (some t) rest
    else throttleRun limit (some t0) rest

/-- throttledDrawCropGuides = throttle(drawGuides, 16) (part_002 line 212):
the trace of crop-guide draw calls that actually execute during a burst of
mouse-move events carrying (cropStart, cropEnd) pairs. -/
def throttledCropGuidesRun (events : List (ℚ × (Pt × Pt))) : List (Pt × Pt) :=
  throttleRun 16 none events

/-- A straight-alpha RGBA colour with rational components. -/
structure Color where
  r : ℚ
  g : ℚ
  b : ℚ
  a : ℚ
deriving DecidableEq

/-- Fully transparent black: the initial content of a fresh canvas. -/
def Color.transparent : Color := ⟨0, 0, 0, 0⟩

/-- Opaque white, the export background fill (#FFFFFF). -/
def Color.white : Color := ⟨1, 1, 1, 1⟩

/-- Opaque black, the annotation fill (#000000) and the backing of an
opaque (alpha:false) canvas. -/
def Color.black : Color := ⟨0, 0, 0, 1⟩

/-- Source-over compositing of straight-alpha colours, the default canvas
globalCompositeOperation. -/
def over (s d : Color) : Color :=
  let a := s.a + d.a * (1 - s.a)
  if a = 0 then Color.transparent
  else ⟨(s.r * s.a + d.r * d.a * (1 - s.a)) / a,
        (s.g * s.a + d.g * d.a * (1 - s.a)) / a,
        (s.b * s.a + d.b * d.a * (1 - s.a)) / a, a⟩

/-- A canvas pixel buffer: integer dimensions and a pixel function. -/
structure Canvas where
  width : ℤ
  height : ℤ
  pixel : ℤ → ℤ → Color

/-- fillRect with integer coordinates: composite the fill colour over every
pixel of [x, x+w) x [y, y+h). -/
def fillRectPx (c : Canvas) (x y w h : ℤ) (col : Color) : Canvas :=
  { c with pixel := fun i j =>
      if x ≤ i ∧ i < x + w ∧ y ≤ j ∧ j < y + h then over col (c.pixel i j)
      else c.pixel i j }

/-- drawImage(src, 0, 0): composite the source buffer over the destination
on the source's extent. -/
def drawImageAt (c src : Canvas) : Canvas :=
  { c with pixel := fun i j =>
      if 0 ≤ i ∧ i < src.width ∧ 0 ≤ j ∧ j < src.height then over (src.pixel i j) (c.pixel i j)
      else c.pixel i j }

/-- Drawing one overlay element during export (editor-canvas.js lines
100-113): a rect element is filled opaque black at integer-rounded
coordinates; other shapes are not implemented. -/
def drawElement (c : Canvas) (el : Element) : Canvas :=
  if el.ty = "rect" then
    fillRectPx c (jsRound el.x) (jsRound el.y) (jsRound el.width) (jsRound el.height) Color.black
  else c

/-- prepareFinalCanvas (editor-canvas.js lines 67-117): if the offscreen
canvas is absent or degenerate, return the fresh 1x1 canvas untouched;
otherwise size the output to the offscreen canvas, fill opaque white, draw
the offscreen buffer, then draw every overlay element. -/
def prepareFinalCanvas (offscreen : Option Canvas) (elements : List Element) : Canvas :=
  match offscreen with
  | none => ⟨1, 1, fun _ _ => Color.transparent⟩
  | some off =>
    if off.width = 0 ∨ off.height = 0 then ⟨1, 1, fun _ _ => Color.transparent⟩
    else
      let base : Canvas := ⟨off.width, off.height, fun _ _ => Color.transparent⟩
      let filled := fillRectPx base 0 0 off.width off.height Color.white
      let withImage := drawImageAt filled off
      elements.foldl drawElement withImage

/-- The offscreen working canvas right after loadScreenshot (part_001 lines
129-180): dimensions equal the image's natural size, and because the
offscreen context is created with alpha:false (an opaque canvas backed by
opaque black), drawing the source composites it over opaque black. -/
def loadOffscreen (source : Canvas) : Canvas :=
  drawImageAt ⟨source.width, source.height, fun _ _ => Color.black⟩ source

/-- A 1x1 source image with a half-transparent white pixel. -/
def demoSrc : Canvas := ⟨1, 1, fun _ _ => ⟨1, 1, 1, 1 / 2⟩⟩


end SnipScreen

namespace SnipScreen

theorem reprojectElement_eq_spec (sx sy : ℚ) (ax ay : ℤ) (el : Element) :
    reprojectElement sx sy ax ay el = specReproject sx sy ax ay el := rfl

/-- Helper: unpacking a successful completeCrop. -/
theorem completeCrop_success_eq (origW origH : ℤ) (s p : Pt) (ok : Bool) (doc d : Doc)
    (hs : completeCrop origW origH s p ok doc = CropOutcome.success d) :
    d = ⟨(sourceRect origW origH doc.offW doc.offH s p).w,
         (sourceRect origW origH doc.offW doc.offH s p).h,
         (doc.elements.map (cropReproject origW origH doc.offW doc.offH s p)).filter
           (survivesCrop (sourceRect origW origH doc.offW doc.offH s p).w
             (sourceRect origW origH doc.offW doc.offH s p).h)⟩ := by
  simp only [completeCrop] at hs
  split_ifs at hs
  all_goals cases hs
  rfl

/-- Helper: the clamped source rectangle always has positive width and height. -/
theorem sourceRect_pos (origW origH offW offH : ℤ) (s p : Pt) :
    0 < (sourceRect origW origH offW offH s p).w
      ∧ 0 < (sourceRect origW origH offW offH s p).h := by
  unfold sourceRect
  constructor <;> exact lt_of_lt_of_le one_pos (le_max_left _ _)

/-- Helper: the survival filter holds exactly when the element's half-open box
meets the half-open box of the new bitmap, provided the element box is
non-degenerate and the bitmap extents are positive. -/
theorem survivesCrop_iff_intersects (W H : ℤ) (el : Element)
    (hw : 0 < el.width) (hh : 0 < el.height) (hW : 0 < W) (hH : 0 < H) :
    survivesCrop W H el = true ↔
      Intersects el.x el.y el.width el.height (W : ℚ) (H : ℚ) := by
  have hWq : (0 : ℚ) < (W : ℚ) := by exact_mod_cast hW
  have hHq : (0 : ℚ) < (H : ℚ) := by exact_mod_cast hH
  unfold survivesCrop Intersects
  simp only [Bool.and_eq_true, decide_eq_true_eq]
  constructor
  · rintro ⟨⟨⟨hxw, hyh⟩, hxW⟩, hyH⟩
    refine ⟨max 0 el.x, max 0 el.y, le_max_right _ _, ?_, le_max_left _ _, ?_,
      le_max_right _ _, ?_, le_max_left _ _, ?_⟩
    · exact max_lt hxw (lt_add_of_pos_right _ hw)
    · exact max_lt hWq hxW
    · exact max_lt hyh (lt_add_of_pos_right _ hh)
    · exact max_lt hHq hyH
  · rintro ⟨px, py, h1, h2, h3, h4, h5, h6, h7, h8⟩
    exact ⟨⟨⟨lt_of_le_of_lt h3 h2, lt_of_le_of_lt h7 h6⟩, lt_of_le_of_lt h1 h4⟩,
      lt_of_le_of_lt h5 h8⟩

end SnipScreen

namespace SnipScreen

/-- C1 (amended): after a successful completeCrop the element list is exactly
the re-projected originals filtered by intersection with the new bitmap: an
element whose re-projected half-open bounds do not meet [0,newW)x[0,newH) is
dropped, and an element whose re-projected bounds partially overlap the new
bitmap is retained with those re-projected bounds unchanged - the code does
not clamp retained bounds to the new bitmap. -/
theorem completeCrop_element_retention (origW origH : ℤ) (s p : Pt) (doc d : Doc)
    (hs : completeCrop origW origH s p true doc = CropOutcome.success d) :
    d.elements = (doc.elements.map (cropReproject origW origH doc.offW doc.offH s p)).filter
        (survivesCrop (sourceRect origW origH doc.offW doc.offH s p).w
          (sourceRect origW origH doc.offW doc.offH s p).h)
    ∧ ∀ el ∈ doc.elements,
        0 < (cropReproject origW origH doc.offW doc.offH s p el).width →
        0 < (cropReproject origW origH doc.offW doc.offH s p el).height →
        (cropReproject origW origH doc.offW doc.offH s p el ∈ d.elements ↔
          Intersects (cropReproject origW origH doc.offW doc.offH s p el).x
            (cropReproject origW origH doc.offW doc.offH s p el).y
            (cropReproject origW origH doc.offW doc.offH s p el).width
            (cropReproject origW origH doc.offW doc.offH s p el).height
            ((sourceRect origW origH doc.offW doc.offH s p).w : ℚ)
            ((sourceRect origW origH doc.offW doc.offH s p).h : ℚ)) := by
  obtain rfl := completeCrop_success_eq origW origH s p true doc d hs
  refine ⟨rfl, ?_⟩
  intro el hel hw hh
  rw [← survivesCrop_iff_intersects _ _ _ hw hh
    (sourceRect_pos origW origH doc.offW doc.offH s p).1
    (sourceRect_pos origW origH doc.offW doc.offH s p).2]
  constructor
  · intro hmem
    exact (List.mem_filter.mp hmem).2
  · intro hsur
    exact List.mem_filter.mpr ⟨List.mem_map_of_mem _ hel, hsur⟩

/-- C1 witness: the 800x600 scenario, crop (100,100)-(300,250), element at
(150,150,20,20) surviving as (50,50,20,20). -/
theorem completeCrop_element_retention_w :
    (⟨200, 150, [⟨"b", "rect", 50, 50, 20, 20, "#000000"⟩]⟩ : Doc).elements
      = (((⟨800, 600, [⟨"b", "rect", 150, 150, 20, 20, "#000000"⟩]⟩ : Doc)).elements.map
          (cropReproject 800 600 800 600 ⟨100, 100⟩ ⟨300, 250⟩)).filter
          (survivesCrop (sourceRect 800 600 800 600 ⟨100, 100⟩ ⟨300, 250⟩).w
            (sourceRect 800 600 800 600 ⟨100, 100⟩ ⟨300, 250⟩).h) := by
  have hs : completeCrop 800 600 ⟨100, 100⟩ ⟨300, 250⟩ true
      ⟨800, 600, [⟨"b", "rect", 150, 150, 20, 20, "#000000"⟩]⟩
      = CropOutcome.success ⟨200, 150, [⟨"b", "rect", 50, 50, 20, 20, "#000000"⟩]⟩ := by
    norm_num [completeCrop, clampedSelection, sourceRect, cropReproject, reprojectElement,
      survivesCrop, jsRound]
  exact (completeCrop_element_retention 800 600 ⟨100, 100⟩ ⟨300, 250⟩ _ _ hs).1

/-- C1 counterexample to the claim as stated: with the 800x600 bitmap, crop
(100,100)-(300,250) and an element at (90,90,20,20), the element partially
overlaps the new bitmap and is retained as (-10,-10,20,20); its bounds are
NOT clamped to the new bitmap bounds [0,200)x[0,150). -/
theorem completeCrop_no_clamp_counterexample :
    completeCrop 800 600 ⟨100, 100⟩ ⟨300, 250⟩ true
        ⟨800, 600, [⟨"a", "rect", 90, 90, 20, 20, "#000000"⟩]⟩
      = CropOutcome.success ⟨200, 150, [⟨"a", "rect", -10, -10, 20, 20, "#000000"⟩]⟩
    ∧ ¬∀ el ∈ (⟨200, 150, [⟨"a", "rect", -10, -10, 20, 20, "#000000"⟩]⟩ : Doc).elements,
          0 ≤ el.x ∧ 0 ≤ el.y ∧ el.x + el.width ≤ 200 ∧ el.y + el.height ≤ 150 := by
  constructor
  · norm_num [completeCrop, clampedSelection, sourceRect, cropReproject, reprojectElement,
      survivesCrop, jsRound]
  · intro hall
    have h2 := hall ⟨"a", "rect", -10, -10, 20, 20, "#000000"⟩ (by simp)
    norm_num at h2

/-- C2: every element surviving a completeCrop has the coordinates given by
the specification formula newX = round(element.x*scaleX - sourceX) and its
analogues for y, width and height: it is the manual scale-and-translate
re-projection of one of the original elements, with identical integers. -/
theorem completeCrop_reprojection_formula (origW origH : ℤ) (s p : Pt) (doc d : Doc)
    (hs : completeCrop origW origH s p true doc = CropOutcome.success d) :
    ∀ el' ∈ d.elements, ∃ el ∈ doc.elements,
      el' = specReproject ((origW : ℚ) / (doc.offW : ℚ)) ((origH : ℚ) / (doc.offH : ℚ))
              (sourceRect origW origH doc.offW doc.offH s p).x
              (sourceRect origW origH doc.offW doc.offH s p).y el := by
  obtain rfl := completeCrop_success_eq origW origH s p true doc d hs
  intro el' hel'
  obtain ⟨el, hel, rfl⟩ := List.mem_map.mp (List.mem_filter.mp hel').1
  exact ⟨el, hel, rfl⟩

/-- C2 witness: in the 800x600 scenario the surviving element (50,50,20,20)
is the spec re-projection of the original element (150,150,20,20). -/
theorem completeCrop_reprojection_formula_w :
    (⟨"b", "rect", 50, 50, 20, 20, "#000000"⟩ : Element)
      = specReproject (((800 : ℤ) : ℚ) / ((800 : ℤ) : ℚ)) (((600 : ℤ) : ℚ) / ((600 : ℤ) : ℚ))
          (sourceRect 800 600 800 600 ⟨100, 100⟩ ⟨300, 250⟩).x
          (sourceRect 800 600 800 600 ⟨100, 100⟩ ⟨300, 250⟩).y
          ⟨"b", "rect", 150, 150, 20, 20, "#000000"⟩ := by
  have hs : completeCrop 800 600 ⟨100, 100⟩ ⟨300, 250⟩ true
      ⟨800, 600, [⟨"b", "rect", 150, 150, 20, 20, "#000000"⟩]⟩
      = CropOutcome.success ⟨200, 150, [⟨"b", "rect", 50, 50, 20, 20, "#000000"⟩]⟩ := by
    norm_num [completeCrop, clampedSelection, sourceRect, cropReproject, reprojectElement,
      survivesCrop, jsRound]
  obtain ⟨el, hel, heq⟩ := completeCrop_reprojection_formula 800 600 ⟨100, 100⟩ ⟨300, 250⟩ _ _ hs
    ⟨"b", "rect", 50, 50, 20, 20, "#000000"⟩ (List.mem_singleton_self _)
  have hel2 : el ∈ [(⟨"b", "rect", 150, 150, 20, 20, "#000000"⟩ : Element)] := hel
  rw [List.mem_singleton] at hel2
  subst hel2
  exact heq

/-- C3: a successful completeCrop produces a working bitmap whose width and
height are exactly the clamped source rectangle dimensions computed on the
original full-resolution image. -/
theorem completeCrop_success_dims (origW origH : ℤ) (s p : Pt) (ok : Bool) (doc d : Doc)
    (hs : completeCrop origW origH s p ok doc = CropOutcome.success d) :
    d.offW = (sourceRect origW origH doc.offW doc.offH s p).w
    ∧ d.offH = (sourceRect origW origH doc.offW doc.offH s p).h := by
  obtain rfl := completeCrop_success_eq origW origH s p ok doc d hs
  exact ⟨rfl, rfl⟩

/-- C3 witness: the 800x600 scenario produces a 200x150 bitmap, equal to the
clamped source rectangle dimensions. -/
theorem completeCrop_success_dims_w :
    (⟨200, 150, []⟩ : Doc).offW = (sourceRect 800 600 800 600 ⟨100, 100⟩ ⟨300, 250⟩).w
    ∧ (⟨200, 150, []⟩ : Doc).offH = (sourceRect 800 600 800 600 ⟨100, 100⟩ ⟨300, 250⟩).h := by
  have hs : completeCrop 800 600 ⟨100, 100⟩ ⟨300, 250⟩ true ⟨800, 600, []⟩
      = CropOutcome.success ⟨200, 150, []⟩ := by
    norm_num [completeCrop, clampedSelection, sourceRect, jsRound]
  simpa using completeCrop_success_dims 800 600 ⟨100, 100⟩ ⟨300, 250⟩ true _ _ hs

/-- C4 (amended): a rejected crop (invalid canvas or selection with w<=1 or
h<=1 after clamping) leaves the document untouched; but when the draw into
the resized canvases fails mid-pipeline, the element list is unchanged while
the working bitmap has already been resized to the new crop dimensions, so
the operation is not atomic on a draw failure. -/
theorem completeCrop_failure_modes (origW origH : ℤ) (s p : Pt) (ok : Bool) (doc : Doc) :
    (match completeCrop origW origH s p ok doc with
      | CropOutcome.rejected d => d = doc
      | CropOutcome.drawFail d =>
          d.elements = doc.elements
          ∧ d.offW = (sourceRect origW origH doc.offW doc.offH s p).w
          ∧ d.offH = (sourceRect origW origH doc.offW doc.offH s p).h
      | CropOutcome.success _ => True) := by
  simp only [completeCrop]
  split_ifs <;> simp

/-- C4 counterexample to the claim as stated: when the draw fails
mid-pipeline, the working bitmap does not keep its prior dimensions: the
800x600 document ends with a 200x150 bitmap. -/
theorem completeCrop_drawfail_counterexample :
    completeCrop 800 600 ⟨100, 100⟩ ⟨300, 250⟩ false ⟨800, 600, []⟩
      = CropOutcome.drawFail ⟨200, 150, []⟩
    ∧ (⟨200, 150, []⟩ : Doc).offW ≠ (⟨800, 600, []⟩ : Doc).offW := by
  constructor
  · norm_num [completeCrop, clampedSelection, sourceRect, jsRound]
  · norm_num

end SnipScreen

namespace SnipScreen

/-- Helper: compositing a fully opaque source leaves the source unchanged. -/
theorem over_opaque_src (s d : Color) (hs : s.a = 1) : over s d = s := by
  obtain ⟨r, g, b, a⟩ := s
  have ha : a = 1 := hs
  subst ha
  simp [over]

/-- Helper: compositing anything over an opaque destination is opaque. -/
theorem over_alpha_opaque_dst (s d : Color) (hd : d.a = 1) : (over s d).a = 1 := by
  have h1 : s.a + d.a * (1 - s.a) = 1 := by rw [hd]; ring
  simp only [over, h1]
  rw [if_neg one_ne_zero]

/-- Helper: drawing one element keeps the canvas dimensions. -/
theorem drawElement_dims (c : Canvas) (el : Element) :
    (drawElement c el).width = c.width ∧ (drawElement c el).height = c.height := by
  unfold drawElement fillRectPx
  split_ifs <;> exact ⟨rfl, rfl⟩

/-- Helper: drawing a list of elements keeps the canvas dimensions. -/
theorem foldl_drawElement_dims (els : List Element) (c : Canvas) :
    (els.foldl drawElement c).width = c.width
      ∧ (els.foldl drawElement c).height = c.height := by
  induction els generalizing c with
  | nil => exact ⟨rfl, rfl⟩
  | cons el rest ih =>
    simp only [List.foldl_cons]
    obtain ⟨h1, h2⟩ := ih (drawElement c el)
    obtain ⟨h3, h4⟩ := drawElement_dims c el
    exact ⟨h1.trans h3, h2.trans h4⟩

/-- C5 (amended): during a burst of pointer-move events the throttled
crop-guide redraw executes the first event immediately, and any event
arriving strictly within the 16 ms window after the last executed call is
skipped entirely - there is no trailing invocation, so the final event of a
burst can go undrawn. -/
theorem throttleRun_first_and_window (t0 t : ℚ) (a : Pt × Pt) (rest : List (ℚ × (Pt × Pt))) :
    (throttledCropGuidesRun ((t, a) :: rest)).head? = some a
    ∧ (t < t0 + 16 →
        throttleRun 16 (some t0) ((t, a) :: rest) = throttleRun 16 (some t0) rest) := by
  constructor
  · rfl
  · intro h
    simp only [throttleRun]
    rw [if_neg (not_le.mpr h)]

/-- C5 witness: a lone event executes, and an event 5 ms after the last
executed call (within the 16 ms window) is dropped. -/
theorem throttleRun_first_and_window_w :
    ((throttledCropGuidesRun [((0 : ℚ), ((⟨0, 0⟩ : Pt), (⟨1, 1⟩ : Pt)))]).head?
       = some (⟨0, 0⟩, ⟨1, 1⟩))
    ∧ ((5 : ℚ) < 0 + 16)
    ∧ throttleRun 16 (some 0) [((5 : ℚ), ((⟨2, 2⟩ : Pt), (⟨3, 3⟩ : Pt)))]
        = throttleRun 16 (some 0) ([] : List (ℚ × (Pt × Pt))) := by
  refine ⟨(throttleRun_first_and_window 0 0 (⟨0, 0⟩, ⟨1, 1⟩) []).1, by norm_num, ?_⟩
  exact (throttleRun_first_and_window 0 5 (⟨2, 2⟩, ⟨3, 3⟩) []).2 (by norm_num)

/-- C5 counterexample to the claim as stated: in a burst of two move events
at 0 ms and 5 ms the first redraw executes and the second - the final event
of the burst - is dropped by the 16 ms throttle, so the display does not end
showing the selection rectangle of the last received pointer position. -/
theorem throttle_drops_final_counterexample :
    throttledCropGuidesRun [(0, (⟨0, 0⟩, ⟨10, 10⟩)), (5, (⟨0, 0⟩, ⟨40, 40⟩))]
      = [(⟨0, 0⟩, ⟨10, 10⟩)]
    ∧ ((⟨0, 0⟩, ⟨40, 40⟩) : Pt × Pt)
        ∉ throttledCropGuidesRun [(0, (⟨0, 0⟩, ⟨10, 10⟩)), (5, (⟨0, 0⟩, ⟨40, 40⟩))] := by
  have he : throttledCropGuidesRun [(0, (⟨0, 0⟩, ⟨10, 10⟩)), (5, (⟨0, 0⟩, ⟨40, 40⟩))]
      = [(⟨0, 0⟩, ⟨10, 10⟩)] := by
    norm_num [throttledCropGuidesRun, throttleRun]
  refine ⟨he, ?_⟩
  rw [he]
  intro hmem
  rw [List.mem_singleton] at hmem
  have h40 : (⟨40, 40⟩ : Pt) = ⟨10, 10⟩ := congrArg Prod.snd hmem
  have : (40 : ℚ) = 10 := congrArg Pt.x h40
  norm_num at this

/-- C6: on pointer-up of an annotate drag a new element with the fresh
identifier anno-Date.now() is appended exactly when the dragged rectangle
exceeds 1 pixel in both axes; a 1x1-or-smaller drag appends nothing and
restores the pre-drag pixels; when the timestamp-derived identifier does not
already occur, identifiers remain pairwise distinct. -/
theorem handleMouseUpAnnotate_minsize (s p : Pt) (now : ℕ) (els : List Element) :
    (1 < |p.x - s.x| ∧ 1 < |p.y - s.y| →
        handleMouseUpAnnotate s p now els =
          (els ++ [{ id := freshAnnoId now, ty := "rect", x := min s.x p.x, y := min s.y p.y,
                     width := |p.x - s.x|, height := |p.y - s.y|, color := "#000000" }], false))
    ∧ (¬(1 < |p.x - s.x| ∧ 1 < |p.y - s.y|) → handleMouseUpAnnotate s p now els = (els, true))
    ∧ ((els.map Element.id).Nodup → freshAnnoId now ∉ els.map Element.id →
        ((handleMouseUpAnnotate s p now els).1.map Element.id).Nodup) := by
  refine ⟨?_, ?_, ?_⟩
  · intro h
    simp only [handleMouseUpAnnotate, if_pos h]
  · intro h
    simp only [handleMouseUpAnnotate, if_neg h]
  · intro hnd hfresh
    by_cases h : 1 < |p.x - s.x| ∧ 1 < |p.y - s.y|
    · simp only [handleMouseUpAnnotate, if_pos h, List.map_append, List.map_cons, List.map_nil]
      rw [List.nodup_append]
      refine ⟨hnd, List.nodup_singleton _, ?_⟩
      intro x hx hx2
      rw [List.mem_singleton] at hx2
      subst hx2
      exact hfresh hx
    · simp only [handleMouseUpAnnotate, if_neg h]
      exact hnd

/-- C6 witness: a 10x10 drag appends the element; the empty prior list is
trivially duplicate-free. -/
theorem handleMouseUpAnnotate_minsize_w :
    (1 < |(10 : ℚ) - 0| ∧ 1 < |(10 : ℚ) - 0|)
    ∧ handleMouseUpAnnotate ⟨0, 0⟩ ⟨10, 10⟩ 7 []
        = ([{ id := freshAnnoId 7, ty := "rect", x := min (0 : ℚ) 10, y := min (0 : ℚ) 10,
              width := |(10 : ℚ) - 0|, height := |(10 : ℚ) - 0|, color := "#000000" }], false)
    ∧ (([] : List Element).map Element.id).Nodup := by
  have h1 : 1 < |(10 : ℚ) - 0| ∧ 1 < |(10 : ℚ) - 0| := by constructor <;> norm_num
  refine ⟨h1, ?_, List.nodup_nil⟩
  have h2 := (handleMouseUpAnnotate_minsize ⟨0, 0⟩ ⟨10, 10⟩ 7 []).1 h1
  simpa using h2

/-- C7: at most one drawing tool (crop or annotate) is active at any time:
every toggleTool transition preserves the exclusivity invariant, and
activating annotate while crop is active leaves exactly annotate active. -/
theorem toggleTool_mode_exclusive (visible : Bool) (tool : Tool) (activeTools : Finset Tool)
    (hinv : ¬(Tool.crop ∈ activeTools ∧ Tool.annotate ∈ activeTools)) :
    ¬(Tool.crop ∈ toggleTool visible tool activeTools
        ∧ Tool.annotate ∈ toggleTool visible tool activeTools)
    ∧ (tool = Tool.annotate → visible = true → Tool.crop ∈ activeTools →
        Tool.annotate ∈ toggleTool visible tool activeTools
          ∧ Tool.crop ∉ toggleTool visible tool activeTools) := by
  constructor
  · unfold toggleTool
    split_ifs with h1 h2
    · exact hinv
    · rintro ⟨hc, ha⟩
      exact hinv ⟨Finset.mem_of_mem_erase hc, Finset.mem_of_mem_erase ha⟩
    · cases tool with
      | crop =>
        rintro ⟨-, ha⟩
        rw [show ((drawingTools.filter (fun t => t ≠ Tool.crop)).foldl
            (fun s t => s.erase t) activeTools) = activeTools.erase Tool.annotate from rfl] at ha
        rcases Finset.mem_insert.mp ha with h | h
        · exact absurd h (by decide)
        · exact absurd h (Finset.not_mem_erase _ _)
      | annotate =>
        rintro ⟨hc, -⟩
        rw [show ((drawingTools.filter (fun t => t ≠ Tool.annotate)).foldl
            (fun s t => s.erase t) activeTools) = activeTools.erase Tool.crop from rfl] at hc
        rcases Finset.mem_insert.mp hc with h | h
        · exact absurd h (by decide)
        · exact absurd h (Finset.not_mem_erase _ _)
      | text =>
        rintro ⟨hc, -⟩
        rw [show ((drawingTools.filter (fun t => t ≠ Tool.text)).foldl
            (fun s t => s.erase t) activeTools)
            = (activeTools.erase Tool.crop).erase Tool.annotate from rfl] at hc
        rcases Finset.mem_insert.mp hc with h | h
        · exact absurd h (by decide)
        · exact absurd (Finset.mem_of_mem_erase h) (Finset.not_mem_erase _ _)
      | arrow =>
        rintro ⟨hc, -⟩
        rw [show ((drawingTools.filter (fun t => t ≠ Tool.arrow)).foldl
            (fun s t => s.erase t) activeTools)
            = (activeTools.erase Tool.crop).erase Tool.annotate from rfl] at hc
        rcases Finset.mem_insert.mp hc with h | h
        · exact absurd h (by decide)
        · exact absurd (Finset.mem_of_mem_erase h) (Finset.not_mem_erase _ _)
  · intro ht hv hc
    subst ht
    subst hv
    have hna : Tool.annotate ∉ activeTools := fun ha => hinv ⟨hc, ha⟩
    unfold toggleTool
    rw [if_neg (by decide), if_neg hna]
    constructor
    · exact Finset.mem_insert_self _ _
    · intro hcm
      rw [show ((drawingTools.filter (fun t => t ≠ Tool.annotate)).foldl
          (fun s t => s.erase t) activeTools) = activeTools.erase Tool.crop from rfl] at hcm
      rcases Finset.mem_insert.mp hcm with h | h
      · exact absurd h (by decide)
      · exact absurd h (Finset.not_mem_erase _ _)

/-- C7 witness: toggling annotate while only crop is active leaves exactly
annotate active. -/
theorem toggleTool_mode_exclusive_w :
    ¬(Tool.crop ∈ toggleTool true Tool.annotate {Tool.crop}
        ∧ Tool.annotate ∈ toggleTool true Tool.annotate {Tool.crop})
    ∧ (Tool.annotate ∈ toggleTool true Tool.annotate {Tool.crop}
        ∧ Tool.crop ∉ toggleTool true Tool.annotate {Tool.crop}) := by
  have h := toggleTool_mode_exclusive true Tool.annotate {Tool.crop} (by decide)
  exact ⟨h.1, h.2 rfl rfl (by decide)⟩

/-- C8: getMousePos maps a pointer position exactly by the specification
formula - translate by the cached rect origin, multiply by
bitmapSize/rectSize with scale 1 when the cached rect is degenerate, clamp
componentwise to [0, bitmapSize]. -/
theorem getMousePos_maps_and_clamps (rect : DisplayRect) (bw bh cx cy : ℚ) :
    getMousePos rect bw bh cx cy = specToBitmapSpace rect bw bh cx cy
    ∧ (0 ≤ bw → 0 ≤ (getMousePos rect bw bh cx cy).x ∧ (getMousePos rect bw bh cx cy).x ≤ bw)
    ∧ (0 ≤ bh → 0 ≤ (getMousePos rect bw bh cx cy).y ∧ (getMousePos rect bw bh cx cy).y ≤ bh) := by
  refine ⟨rfl, fun h => ?_, fun h => ?_⟩
  · exact ⟨le_max_left _ _, max_le h (min_le_right _ _)⟩
  · exact ⟨le_max_left _ _, max_le h (min_le_right _ _)⟩

/-- C8 witness: a concrete pointer event on a 400x300 display rect over an
800x600 bitmap. -/
theorem getMousePos_maps_and_clamps_w :
    ((0 : ℚ) ≤ 800) ∧ ((0 : ℚ) ≤ 600)
    ∧ getMousePos ⟨10, 20, 400, 300⟩ 800 600 500 100
        = specToBitmapSpace ⟨10, 20, 400, 300⟩ 800 600 500 100
    ∧ (0 ≤ (getMousePos ⟨10, 20, 400, 300⟩ 800 600 500 100).x
        ∧ (getMousePos ⟨10, 20, 400, 300⟩ 800 600 500 100).x ≤ 800) := by
  have h := getMousePos_maps_and_clamps ⟨10, 20, 400, 300⟩ 800 600 500 100
  exact ⟨by norm_num, by norm_num, h.1, h.2.1 (by norm_num)⟩

end SnipScreen

namespace SnipScreen

/-- C9 (amended): exporting immediately after load with no crop and an empty
element list yields a buffer whose dimensions equal the source's and whose
pixels are the source composited over the opaque black backing of the
alpha:false offscreen canvas; when a source pixel is opaque this coincides
with compositing it over opaque white. -/
theorem export_after_load_pixels (src : Canvas) (i j : ℤ)
    (hi0 : 0 ≤ i) (hiw : i < src.width) (hj0 : 0 ≤ j) (hjh : j < src.height) :
    (prepareFinalCanvas (some (loadOffscreen src)) []).width = src.width
    ∧ (prepareFinalCanvas (some (loadOffscreen src)) []).height = src.height
    ∧ (prepareFinalCanvas (some (loadOffscreen src)) []).pixel i j
        = over (src.pixel i j) Color.black
    ∧ ((src.pixel i j).a = 1 →
        (prepareFinalCanvas (some (loadOffscreen src)) []).pixel i j
          = over (src.pixel i j) Color.white) := by
  have hwne : ¬((loadOffscreen src).width = 0 ∨ (loadOffscreen src).height = 0) := by
    rintro (h | h)
    · have hw : src.width = 0 := h
      rw [hw] at hiw
      exact absurd (lt_of_le_of_lt hi0 hiw) (lt_irrefl 0)
    · have hh : src.height = 0 := h
      rw [hh] at hjh
      exact absurd (lt_of_le_of_lt hj0 hjh) (lt_irrefl 0)
  have hc : 0 ≤ i ∧ i < src.width ∧ 0 ≤ j ∧ j < src.height := ⟨hi0, hiw, hj0, hjh⟩
  have hpix : (prepareFinalCanvas (some (loadOffscreen src)) []).pixel i j
      = over (src.pixel i j) Color.black := by
    simp only [prepareFinalCanvas, if_neg hwne, List.foldl_nil]
    simp only [drawImageAt, fillRectPx, loadOffscreen, zero_add]
    simp only [if_pos hc]
    rw [over_opaque_src Color.white _ rfl]
    exact over_opaque_src _ Color.white (over_alpha_opaque_dst (src.pixel i j) Color.black rfl)
  refine ⟨?_, ?_, hpix, ?_⟩
  · simp only [prepareFinalCanvas, if_neg hwne, List.foldl_nil]
    rfl
  · simp only [prepareFinalCanvas, if_neg hwne, List.foldl_nil]
    rfl
  · intro hop
    rw [hpix, over_opaque_src _ Color.black hop, over_opaque_src _ Color.white hop]

/-- C9 witness: a 1x1 source evaluated at its pixel. -/
theorem export_after_load_pixels_w :
    ((0 : ℤ) ≤ 0) ∧ ((0 : ℤ) < demoSrc.width)
    ∧ (prepareFinalCanvas (some (loadOffscreen demoSrc)) []).pixel 0 0
        = over (demoSrc.pixel 0 0) Color.black := by
  refine ⟨le_refl 0, by norm_num [demoSrc], ?_⟩
  exact (export_after_load_pixels demoSrc 0 0 (le_refl 0) (by norm_num [demoSrc])
    (le_refl 0) (by norm_num [demoSrc])).2.2.1

/-- C9 counterexample to the claim as stated: for a source with a
half-transparent pixel the exported buffer does not equal the source
composited over opaque white: the alpha:false offscreen canvas has already
composited it over opaque black. -/
theorem export_white_composite_counterexample :
    (prepareFinalCanvas (some (loadOffscreen demoSrc)) []).pixel 0 0
      ≠ over (demoSrc.pixel 0 0) Color.white := by
  have h1 : (prepareFinalCanvas (some (loadOffscreen demoSrc)) []).pixel 0 0
      = over (demoSrc.pixel 0 0) Color.black := by
    exact (export_after_load_pixels demoSrc 0 0 (le_refl 0) (by norm_num [demoSrc])
      (le_refl 0) (by norm_num [demoSrc])).2.2.1
  rw [h1]
  norm_num [over, demoSrc, Color.black, Color.white, Color.mk.injEq]

/-- C10: prepareFinalCanvas cannot fail on an invalid source state: when the
offscreen canvas is absent or has a zero dimension it returns the untouched
1x1 transparent canvas, and otherwise the returned canvas dimensions equal
the offscreen canvas dimensions. -/
theorem prepareFinalCanvas_degenerate_safe (off : Option Canvas) (els : List Element) :
    (match off with
     | none => prepareFinalCanvas off els = ⟨1, 1, fun _ _ => Color.transparent⟩
     | some c =>
        if c.width = 0 ∨ c.height = 0 then
          prepareFinalCanvas off els = ⟨1, 1, fun _ _ => Color.transparent⟩
        else (prepareFinalCanvas off els).width = c.width
          ∧ (prepareFinalCanvas off els).height = c.height) := by
  cases off with
  | none => rfl
  | some c =>
    show (if c.width = 0 ∨ c.height = 0 then
        prepareFinalCanvas (some c) els = ⟨1, 1, fun _ _ => Color.transparent⟩
      else (prepareFinalCanvas (some c) els).width = c.width
        ∧ (prepareFinalCanvas (some c) els).height = c.height)
    by_cases h : c.width = 0 ∨ c.height = 0
    · rw [if_pos h]
      simp only [prepareFinalCanvas, if_pos h]
    · rw [if_neg h]
      simp only [prepareFinalCanvas, if_neg h]
      exact foldl_drawElement_dims els _

end SnipScreen
